import Mathlib

/-!
Verification of the hybrid real-estate search core
(`hybrid_search.py`, `real_estate_vector_db.py`).

The Python code is shallowly embedded: scores (Python floats) become
rationals, prices and counts become integers, MongoDB documents become a
`Doc` structure, and the two external backends (the MongoDB `find` cursor
and the Chroma `similarity_search_with_score` call) become explicit
function parameters returning `Except` so that backend failures are
representable.  Every definition mirrors its Python counterpart
statement by statement; dynamically-typed filter values that the claims
exercise with several runtime types (`min_price`/`max_price`) are given a
small value sum `PVal`.
-/

namespace RealEstate

/-- One scored hit as formatted by `semantic_search`
(`real_estate_vector_db.py`, lines 158-164); the `content`/`metadata`
fields are carried by `id` being the key of the backing document and do
not affect any claim, so only `id` and `score` are kept. -/
structure VecResult where
  id : String
  score : ℚ
  deriving Repr, DecidableEq

/-- Python truthiness of the `mongo_ids` argument: `None` and `[]` are
falsy (`if mongo_ids ...`). -/
def truthyIds : Option (List String) → Bool
  | none => false
  | some l => !l.isEmpty

/-- The result-formatting loop of `semantic_search`
(`real_estate_vector_db.py`, lines 150-168): walk the backend results in
order; when `mongo_ids` is truthy, skip ids outside it; append the rest;
after each append, stop as soon as `len(formatted_results) >= top_k`. -/
def srLoop (mids : Option (List String)) (top_k : Nat) (acc : List VecResult) :
    List (String × ℚ) → List VecResult
  | [] => acc.reverse
  | (i, sc) :: rest =>
    if truthyIds mids && !((mids.getD []).contains i) then
      srLoop mids top_k acc rest
    else
      if top_k ≤ ((⟨i, sc⟩ : VecResult) :: acc).length then ((⟨i, sc⟩ : VecResult) :: acc).reverse
      else srLoop mids top_k ((⟨i, sc⟩ : VecResult) :: acc) rest

/-- The `filter_dict` handed to the vector index: `collection_type` is
added only when truthy, and an empty dict is passed as `None`
(`real_estate_vector_db.py`, lines 130-133 and 146). -/
def ctFilter : Option String → Option String
  | none => none
  | some c => if c = "" then none else some c

/-- `RealEstateVectorDB.semantic_search` (`real_estate_vector_db.py`,
lines 116-174).  `backend` stands for
`self.db.similarity_search_with_score(query, k, filter)` and returns the
index's hit list in the index's own order; `.error` models the call
raising, which the `except` clause turns into `[]`.  When `mongo_ids` is
truthy the requested pool is `top_k * 20`, otherwise `top_k`. -/
def semantic_search
    (backend : String → Option String → Nat → Except String (List (String × ℚ)))
    (query : String) (collection_type : Option String)
    (mongo_ids : Option (List String)) (top_k : Nat) : List VecResult :=
  let search_k := if truthyIds mongo_ids then top_k * 20 else top_k
  match backend query (ctFilter collection_type) search_k with
  | .error _ => []
  | .ok results => srLoop mongo_ids top_k [] results

/-- The slice of a MongoDB listing that `add_listing_to_vector_db`
ingests: `listing_data.get("_id")` (absent ids are `none`) and the text
produced by `create_listing_text_for_embedding`.  The metadata block
(lines 46-56) is derived from the same record and plays no part in the
claims about ingestion. -/
structure Listing where
  _id : Option String
  text : String
  deriving Repr, DecidableEq

/-- `RealEstateVectorDB.add_listing_to_vector_db`
(`real_estate_vector_db.py`, lines 28-76) acting on the vector store,
modelled as the list of (id, embedded text) pairs in insertion order:
a falsy id (`if not listing_id`) is skipped; an id already present
(`if existing['ids']`) returns without writing; otherwise the document
is added. -/
def add_listing_to_vector_db (db : List (String × String)) (listing : Listing) :
    List (String × String) :=
  match listing._id with
  | none => db
  | some i =>
    if i = "" then db
    else if db.any (fun p => p.1 == i) then db
    else db ++ [(i, listing.text)]

/-- The optional record cap of `populate_from_mongo`: `if limit:` is
Python truthiness, so `limit=0` takes the whole collection. -/
def capList (limit : Option Nat) (l : List Listing) : List Listing :=
  match limit with
  | some n => if n ≠ 0 then l.take n else l
  | none => l

/-- `RealEstateVectorDB.populate_from_mongo`
(`real_estate_vector_db.py`, lines 78-114): stream the rent listings then
the sale listings (each optionally capped) through
`add_listing_to_vector_db`. -/
def populate_from_mongo (db : List (String × String)) (rent sale : List Listing)
    (limit : Option Nat) : List (String × String) :=
  ((capList limit rent) ++ (capList limit sale)).foldl add_listing_to_vector_db db

/-- A dynamically-typed filter value as the claims exercise it for the
price bounds: an integer or a (possibly malformed, non-numeric)
string. -/
inductive PVal where
  | pInt (n : Int)
  | pStr (s : String)
  deriving Repr, DecidableEq

/-- Python truthiness of a `PVal`: `0` and `""` are falsy. -/
def truthyP : PVal → Bool
  | .pInt n => n != 0
  | .pStr s => s != ""

/-- Truthiness of `filters.get(key)` for a `PVal`-valued key. -/
def truthyOptP : Option PVal → Bool
  | none => false
  | some v => truthyP v

/-- The `rooms` criterion: either a single count or a list of counts
(the source branches on `isinstance(filters["rooms"], list)`). -/
inductive RoomsVal where
  | rInt (n : Int)
  | rList (l : List Int)
  deriving Repr, DecidableEq

/-- Truthiness of `filters.get("rooms")`: `0` and `[]` are falsy. -/
def truthyRooms : Option RoomsVal → Bool
  | none => false
  | some (.rInt n) => n != 0
  | some (.rList l) => !l.isEmpty

/-- Truthiness of `filters.get(key)` for a string-valued key. -/
def truthyStr : Option String → Bool
  | none => false
  | some s => s != ""

/-- Truthiness of `filters.get(key)` for an integer-valued key. -/
def truthyInt : Option Int → Bool
  | none => false
  | some n => n != 0

/-- The criteria dict accepted by `HybridRealEstateSearch.search` /
`_mongodb_filter`, one field per key the source reads; an absent key is
`none`. -/
structure Filters where
  city : Option String
  district : Option String
  rooms : Option RoomsVal
  min_price : Option PVal
  max_price : Option PVal
  min_area : Option Int
  max_area : Option Int
  building_type : Option String
  min_year : Option Int
  market_type : Option String
  stan_wykonczenia : Option String
  building_material : Option String
  ogrzewanie : Option String
  min_build_year : Option Int
  max_build_year : Option Int
  max_czynsz : Option Int
  has_garage : Option Bool
  has_parking : Option Bool
  has_balcony : Option Bool
  has_elevator : Option Bool
  has_air_conditioning : Option Bool
  pets_allowed : Option Bool
  furnished : Option Bool
  deriving Repr, DecidableEq

/-- The empty criteria dict (`filters = {}`). -/
def noFilters : Filters :=
  ⟨none, none, none, none, none, none, none, none, none, none, none, none,
   none, none, none, none, none, none, none, none, none, none, none⟩

/-- A `{"$gte": v, "$lte": v}` range over the dynamically-typed price
values. -/
structure PriceFilter where
  gte : Option PVal
  lte : Option PVal
  deriving Repr, DecidableEq

/-- A `{"$gte": n, "$lte": n}` range over integers (area). -/
structure IntRange where
  gte : Option Int
  lte : Option Int
  deriving Repr, DecidableEq

/-- A `{"$gte": s, "$lte": s}` range over strings (`build_year` bounds
are stringified with `str(...)` by the source). -/
structure StrRange where
  gte : Option String
  lte : Option String
  deriving Repr, DecidableEq

/-- The `room_count` constraint: `{"$in": [...]}` or direct equality. -/
inductive QRooms where
  | qEq (n : Int)
  | qIn (l : List Int)
  deriving Repr, DecidableEq

/-- The `mongo_query` dict built by `_mongodb_filter`
(`hybrid_search.py`, lines 127-207), one field per key the source may
assign; an unassigned key is `none`. -/
structure MongoQuery where
  city : Option String
  district : Option String
  room_count : Option QRooms
  price : Option PriceFilter
  space_sm : Option IntRange
  building_type : Option String
  build_year : Option StrRange
  market_type : Option String
  stan_wykonczenia : Option String
  building_material : Option String
  ogrzewanie : Option String
  czynsz : Option Int
  has_garage : Option Bool
  has_parking : Option Bool
  has_balcony : Option Bool
  has_elevator : Option Bool
  has_air_conditioning : Option Bool
  pets_allowed : Option Bool
  furnished : Option Bool
  deriving Repr, DecidableEq

/-- `filters.get(key)` for a string key, as the query builder uses it:
the value when truthy, else absent. -/
def keepStr (o : Option String) : Option String :=
  if truthyStr o then o else none

/-- `filters.get(key)` for an integer key: the value when truthy (i.e.
nonzero), else absent. -/
def keepInt (o : Option Int) : Option Int :=
  if truthyInt o then o else none

/-- `filters.get(key)` for a `PVal` key: the value when truthy, else
absent. -/
def keepP (o : Option PVal) : Option PVal :=
  if truthyOptP o then o else none

/-- `str(filters[key])` for a truthy integer key, as the build-year
bounds stringify their values; absent/falsy gives no bound. -/
def strOfTruthyInt (o : Option Int) : Option String :=
  match o with
  | some n => if n != 0 then some (toString n) else none
  | none => none

/-- The `room_count` constraint of the built query (`hybrid_search.py`,
lines 138-142): a truthy list becomes `$in`, a truthy scalar becomes
equality. -/
def roomsQ (o : Option RoomsVal) : Option QRooms :=
  match o with
  | some (.rList l) => if !l.isEmpty then some (.qIn l) else none
  | some (.rInt n) => if n != 0 then some (.qEq n) else none
  | none => none

/-- The query-building half of `_mongodb_filter` (`hybrid_search.py`,
lines 123-207).  The source assigns each `mongo_query` key at most once,
except `build_year`: line 168 (`min_year`) assigns it and lines 181-187
(`min_build_year`/`max_build_year`) re-assign it, so the later block
overwrites the `min_year` constraint whenever its own condition holds;
the `build_year` field below encodes exactly that last-write-wins
outcome.  Amenity keys are guarded by `is not None` (lines 194-207), so
they copy the criteria field verbatim, `False` included. -/
def _mongodb_filter_query (f : Filters) : MongoQuery where
  city := keepStr f.city
  district := keepStr f.district
  room_count := roomsQ f.rooms
  price :=
    if (keepP f.min_price).isSome || (keepP f.max_price).isSome then
      some ⟨keepP f.min_price, keepP f.max_price⟩
    else none
  space_sm :=
    if (keepInt f.min_area).isSome || (keepInt f.max_area).isSome then
      some ⟨keepInt f.min_area, keepInt f.max_area⟩
    else none
  building_type := keepStr f.building_type
  build_year :=
    if (strOfTruthyInt f.min_build_year).isSome || (strOfTruthyInt f.max_build_year).isSome then
      some ⟨strOfTruthyInt f.min_build_year, strOfTruthyInt f.max_build_year⟩
    else
      (strOfTruthyInt f.min_year).map (fun s => (⟨some s, none⟩ : StrRange))
  market_type := keepStr f.market_type
  stan_wykonczenia := keepStr f.stan_wykonczenia
  building_material := keepStr f.building_material
  ogrzewanie := keepStr f.ogrzewanie
  czynsz := keepInt f.max_czynsz
  has_garage := f.has_garage
  has_parking := f.has_parking
  has_balcony := f.has_balcony
  has_elevator := f.has_elevator
  has_air_conditioning := f.has_air_conditioning
  pets_allowed := f.pets_allowed
  furnished := f.furnished

/-- A MongoDB listing document with the fields the built query can
constrain, plus its stringified `_id`.  `price` is nullable: the scraper
stores `price: None` when parsing fails (`scarpy.py`, line 532), and
such records live in the searched collections. -/
structure Doc where
  _id : String
  city : String
  district : String
  room_count : Int
  price : Option Int
  space_sm : Int
  building_type : String
  build_year : String
  market_type : String
  stan_wykonczenia : String
  building_material : String
  ogrzewanie : String
  czynsz : Int
  has_garage : Bool
  has_parking : Bool
  has_balcony : Bool
  has_elevator : Bool
  has_air_conditioning : Bool
  pets_allowed : Bool
  furnished : Bool
  deriving Repr, DecidableEq

/-- Case-insensitive substring containment: the semantics of the
`{"$regex": pat, "$options": "i"}` constraints for the plain location
strings the claims use (no regex metacharacters). -/
def containsCI (s pat : String) : Bool :=
  decide (List.IsInfix (pat.data.map Char.toLower) (s.data.map Char.toLower))

/-- MongoDB's lexicographic string comparison (`a ≤ b`), on the
character sequences. -/
def strLe (a b : String) : Bool :=
  !(decide (b.data < a.data))

/-- `$gte` against the nullable numeric price field under BSON type
bracketing: a string bound never matches a numeric field, and a null
field value matches no numeric bound. -/
def pvalGte (v : PVal) (p : Option Int) : Bool :=
  match v, p with
  | .pInt n, some pv => n ≤ pv
  | _, _ => false

/-- `$lte` against the nullable numeric price field under BSON type
bracketing. -/
def pvalLte (v : PVal) (p : Option Int) : Bool :=
  match v, p with
  | .pInt n, some pv => pv ≤ n
  | _, _ => false

/-- An optional constraint: an absent key imposes nothing. -/
def optCheck {α : Type} (o : Option α) (f : α → Bool) : Bool :=
  match o with
  | none => true
  | some v => f v

/-- MongoDB matching semantics of a built `mongo_query` against one
document: all present keys must hold (MongoDB ANDs top-level query
keys). -/
def docMatches (q : MongoQuery) (d : Doc) : Bool :=
  optCheck q.city (fun pat => containsCI d.city pat) &&
  optCheck q.district (fun pat => containsCI d.district pat) &&
  optCheck q.room_count (fun rc =>
    match rc with
    | .qEq n => d.room_count == n
    | .qIn l => l.contains d.room_count) &&
  optCheck q.price (fun pf =>
    optCheck pf.gte (fun v => pvalGte v d.price) &&
    optCheck pf.lte (fun v => pvalLte v d.price)) &&
  optCheck q.space_sm (fun r =>
    optCheck r.gte (fun n => decide (n ≤ d.space_sm)) &&
    optCheck r.lte (fun n => decide (d.space_sm ≤ n))) &&
  optCheck q.building_type (fun s => d.building_type == s) &&
  optCheck q.build_year (fun r =>
    optCheck r.gte (fun s => strLe s d.build_year) &&
    optCheck r.lte (fun s => strLe d.build_year s)) &&
  optCheck q.market_type (fun s => d.market_type == s) &&
  optCheck q.stan_wykonczenia (fun s => d.stan_wykonczenia == s) &&
  optCheck q.building_material (fun s => d.building_material == s) &&
  optCheck q.ogrzewanie (fun s => d.ogrzewanie == s) &&
  optCheck q.czynsz (fun n => decide (d.czynsz ≤ n)) &&
  optCheck q.has_garage (fun b => d.has_garage == b) &&
  optCheck q.has_parking (fun b => d.has_parking == b) &&
  optCheck q.has_balcony (fun b => d.has_balcony == b) &&
  optCheck q.has_elevator (fun b => d.has_elevator == b) &&
  optCheck q.has_air_conditioning (fun b => d.has_air_conditioning == b) &&
  optCheck q.pets_allowed (fun b => d.pets_allowed == b) &&
  optCheck q.furnished (fun b => d.furnished == b)

/-- `_mongodb_filter` (`hybrid_search.py`, lines 111-218): build the
query, run it against the backend (`collection.find(query).limit(n)`),
and turn a raised exception (`.error`) into `[]`. -/
def _mongodb_filter (backendFind : MongoQuery → Nat → Except String (List Doc))
    (filters : Filters) (limit : Nat) : List Doc :=
  match backendFind (_mongodb_filter_query filters) limit with
  | .ok r => r
  | .error _ => []

/-- The honest MongoDB backend for a fixed collection content: return
the documents matching the query, truncated to the limit, in collection
order. -/
def mongoOf (docs : List Doc) : MongoQuery → Nat → Except String (List Doc) :=
  fun q limit => .ok ((docs.filter (docMatches q)).take limit)

/-- A merged search result (`hybrid_search.py`, `_format_mongo_results`
and `_combine_mongo_and_vector_results`): the full MongoDB document plus
the keys both helpers attach. -/
structure HResult where
  doc : Doc
  collection_type : String
  search_relevance : String
  semantic_score : ℚ
  deriving Repr, DecidableEq

/-- `_format_mongo_results` (`hybrid_search.py`, lines 255-274): tag
every filtered document with score `0.0` and `"filter_match"`. -/
def _format_mongo_results (mongo_results : List Doc) (collection_type : String) :
    List HResult :=
  mongo_results.map (fun d => ⟨d, collection_type, "filter_match", 0⟩)

/-- `_combine_mongo_and_vector_results` (`hybrid_search.py`, lines
220-253): for each vector hit in order, look its id up in the dict
`{str(doc["_id"]): doc}` (later duplicates overwrite earlier ones, hence
the `reverse`), and keep only the hits that join. -/
def _combine_mongo_and_vector_results (mongo_results : List Doc)
    (vector_results : List VecResult) (collection_type : String) : List HResult :=
  vector_results.filterMap (fun v =>
    (mongo_results.reverse.find? (fun d => d._id == v.id)).map
      (fun d => ⟨d, collection_type, "hybrid_match", v.score⟩))

/-- The price a merged record exposes to the sort key, when it has one:
`item.get("price", 0)` returns the record's stored price — which may be
`None`, since the "price" key is present on every scraped record.  The
`0` default below is only ever compared between records that do have
prices: `_rank_and_limit_results` yields no list at all when any record's
price is null (the key function raises), so the default never influences
an actually-produced ordering. -/
def priceVal (item : HResult) : Int := item.doc.price.getD 0

/-- `sort_key` inside `_rank_and_limit_results` (`hybrid_search.py`,
lines 288-293): `(-item.get("semantic_score", 0.0), -item.get("price",
0))` on a record with a non-null price. -/
def sort_key (item : HResult) : ℚ × Int :=
  (-item.semantic_score, -(priceVal item))

/-- Python's ascending lexicographic tuple comparison on `sort_key`,
as the Boolean "less or equal" driving the (stable) sort. -/
def keyLe (a b : HResult) : Bool :=
  decide ((sort_key a).1 < (sort_key b).1 ∨
    ((sort_key a).1 = (sort_key b).1 ∧ (sort_key a).2 ≤ (sort_key b).2))

/-- Stable insertion of a record into a key-sorted list: the new record
goes before the first existing record it compares `keyLe` to. -/
def insertSorted (a : HResult) : List HResult → List HResult
  | [] => [a]
  | b :: bs => if keyLe a b then a :: b :: bs else b :: insertSorted a bs

/-- Python's stable `sorted(results, key=sort_key)`: a stable sort with
respect to a total preorder has a unique output, so stable insertion
sort produces exactly CPython's. -/
def sortResults : List HResult → List HResult
  | [] => []
  | a :: as => insertSorted a (sortResults as)

/-- `_rank_and_limit_results` (`hybrid_search.py`, lines 276-296):
Python's stable `sorted` by `sort_key`, then `[:limit]`.  When any input
record carries a null price, `-item.get("price", 0)` evaluates `-None`
and `sorted` raises `TypeError`, so no ranked list is produced: that
path is `none`. -/
def _rank_and_limit_results (results : List HResult) (limit : Nat) : Option (List HResult) :=
  if results.all (fun r => r.doc.price.isSome) then
    some ((sortResults results).take limit)
  else none

/-- Truthiness of `semantic_query and semantic_query.strip()`
(`hybrid_search.py`, lines 57 and 72): absent or whitespace-only means
no semantic stage. -/
def qTruthy : Option String → Bool
  | none => false
  | some s => s.trim != ""

/-- The MongoDB limit for stage 1 (`hybrid_search.py`, lines 57-60):
an enlarged pool of 10000 when a semantic query follows, else the
caller's limit. -/
def mongoLimitOf (semantic_query : Option String) (limit : Nat) : Nat :=
  if qTruthy semantic_query then 10000 else limit

/-- The body of the per-collection loop of `search` (`hybrid_search.py`,
lines 51-94): filter in MongoDB, skip the scope if no ids survive,
otherwise rerank (query present) or pass through (query absent).
`vb` is the vector-index backend threaded into `semantic_search`. -/
def processCollection
    (vb : String → Option String → Nat → Except String (List (String × ℚ)))
    (backendFind : MongoQuery → Nat → Except String (List Doc))
    (filters : Filters) (semantic_query : Option String) (limit : Nat)
    (collection_name : String) : List HResult :=
  let mongo_results := _mongodb_filter backendFind filters (mongoLimitOf semantic_query limit)
  let mongo_ids := mongo_results.map (fun d => d._id)
  if mongo_ids.isEmpty then []
  else if qTruthy semantic_query then
    let vector_results := semantic_search vb (semantic_query.getD "")
      (some collection_name) (some mongo_ids) (min limit mongo_ids.length)
    _combine_mongo_and_vector_results mongo_results vector_results collection_name
  else
    _format_mongo_results mongo_results collection_name

/-- `_get_collections_to_search` (`hybrid_search.py`, lines 102-109):
`"rent"` and `"sale"` select one collection; every other value falls
into the `else` branch and selects both. -/
def _get_collections_to_search (listing_type : String) : List String :=
  if listing_type = "rent" then ["rent"]
  else if listing_type = "sale" then ["sale"]
  else ["rent", "sale"]

/-- `HybridRealEstateSearch.search` (`hybrid_search.py`, lines 24-100):
run the per-collection pipeline over the selected scopes, concatenate,
then rank and truncate.  `mongoFind` maps a collection name to its
`find` backend.  A `TypeError` raised by the final sort over a
null-priced record propagates out of `search` (there is no handler), so
the result is the ranking's `Option`. -/
def search
    (vb : String → Option String → Nat → Except String (List (String × ℚ)))
    (mongoFind : String → MongoQuery → Nat → Except String (List Doc))
    (filters : Filters) (semantic_query : Option String)
    (listing_type : String) (limit : Nat) : Option (List HResult) :=
  _rank_and_limit_results
    ((_get_collections_to_search listing_type).flatMap
      (fun c => processCollection vb (mongoFind c) filters semantic_query limit c))
    limit

/-- The (id, score) projection of a formatted hit, for relating the
reranker's output to the backend's hit list. -/
def vecPair (r : VecResult) : String × ℚ := (r.id, r.score)

/-! Sample concrete inputs used by witnesses and counterexamples. -/

/-- A sample listing document: built in 1980, priced 100, in Warszawa,
without a garage. -/
def docOld : Doc :=
  ⟨"x1", "Warszawa", "Mokotow", 2, some 100, 50, "blok", "1980", "", "", "", "", 30,
   false, false, false, false, false, false, false⟩

/-- A listing document whose price is null, as the scraper stores on a
parse failure. -/
def docNullPrice : Doc :=
  ⟨"x2", "Warszawa", "", 1, none, 40, "", "1990", "", "", "", "", 0,
   false, false, false, false, false, false, false⟩

/-- A merged filter-match record over the null-priced document. -/
def resNullPrice : HResult := ⟨docNullPrice, "rent", "filter_match", 0⟩

/-- A merged record over `docOld` with score 0. -/
def resA : HResult := ⟨docOld, "rent", "filter_match", 0⟩

/-- A merged record over `docOld` with score 1. -/
def resB : HResult := ⟨docOld, "rent", "hybrid_match", 1⟩

/-- Criteria supplying both a `min_year` and a `max_build_year`. -/
def filtersYears : Filters :=
  { noFilters with min_year := some 2000, max_build_year := some 1990 }

/-- Criteria with a well-formed city filter and a malformed, non-numeric
`min_price`. -/
def filtersBadPrice : Filters :=
  { noFilters with city := some "Warszawa", min_price := some (.pStr "abc") }

/-- Criteria combining a city substring, a numeric price bound and an
explicit `has_garage=False`. -/
def filtersCityGarage : Filters :=
  { noFilters with city := some "warsz", min_price := some (.pInt 50), has_garage := some false }

/-- A sample vector-index backend returning one hit. -/
def vbSample1 : String → Option String → Nat → Except String (List (String × ℚ)) :=
  fun _ _ _ => .ok [("x1", 1)]

/-- A sample vector-index backend returning no hits. -/
def vbSample2 : String → Option String → Nat → Except String (List (String × ℚ)) :=
  fun _ _ _ => .ok []

/-- A sample MongoDB backend holding `docOld` in every collection. -/
def mfSample : String → MongoQuery → Nat → Except String (List Doc) :=
  fun _ => mongoOf [docOld]

/-- A sample listing carrying id "id1". -/
def listingA : Listing := ⟨some "id1", "first text"⟩

/-- A second listing carrying the same id "id1" but different text. -/
def listingB : Listing := ⟨some "id1", "second text"⟩

/-! Theorems. -/

theorem srLoop_subset_bound (ids : List String) (top_k : Nat) (hids : ids ≠ []) :
    ∀ (rest : List (String × ℚ)) (acc : List VecResult),
      acc.length < top_k → (∀ a ∈ acc, a.id ∈ ids) →
      (∀ r ∈ srLoop (some ids) top_k acc rest, r.id ∈ ids) ∧
      (srLoop (some ids) top_k acc rest).length ≤ top_k := by
  have htr : truthyIds (some ids) = true := by
    simp [truthyIds, List.isEmpty_iff, hids]
  intro rest
  induction rest with
  | nil =>
    intro acc hlen hmem
    refine ⟨?_, ?_⟩
    · intro r hr
      simp only [srLoop] at hr
      exact hmem r (List.mem_reverse.mp hr)
    · simp only [srLoop, List.length_reverse]
      omega
  | cons p rest ih =>
    obtain ⟨i, sc⟩ := p
    intro acc hlen hmem
    simp only [srLoop]
    by_cases hskip : (truthyIds (some ids) && !((some ids : Option (List String)).getD []).contains i) = true
    · rw [if_pos hskip]
      exact ih acc hlen hmem
    · rw [if_neg hskip]
      have hi : i ∈ ids := by
        simp only [htr, Option.getD_some, Bool.true_and, Bool.not_eq_true',
          Bool.not_eq_false] at hskip
        simpa using hskip
      have hmem' : ∀ a ∈ ((⟨i, sc⟩ : VecResult) :: acc), a.id ∈ ids := by
        intro a ha
        rcases List.mem_cons.mp ha with h | h
        · rw [h]; exact hi
        · exact hmem a h
      by_cases hstop : top_k ≤ ((⟨i, sc⟩ : VecResult) :: acc).length
      · rw [if_pos hstop]
        refine ⟨?_, ?_⟩
        · intro r hr
          exact hmem' r (List.mem_reverse.mp hr)
        · simp only [List.length_reverse, List.length_cons]
          omega
      · rw [if_neg hstop]
        exact ih _ (by simp only [List.length_cons] at hstop ⊢; omega) hmem'

/-- C1 fails as stated: with the empty candidate list, Python truthiness
(`if mongo_ids and ...`) disables the id filter entirely, so a foreign id
leaks into the output; and with `top_k = 0` the append-then-check loop
still emits one result, exceeding `top_k`. -/
theorem C1_counterexample :
    (¬ ∀ r ∈ semantic_search (fun _ _ _ => .ok [("a", (1 : ℚ))]) "q" none (some []) 5,
        r.id ∈ ([] : List String)) ∧
    ¬ ((semantic_search (fun _ _ _ => .ok [("a", (1 : ℚ))]) "q" none (some ["a"]) 0).length ≤ 0) := by
  decide

/-- C1 (amended): for every backend, query and scope, every NONEMPTY
candidate id list and every `top_k ≥ 1`, the reranker's search returns
only ids from the candidate list and at most `top_k` of them. -/
theorem C1_subset_and_bound
    (backend : String → Option String → Nat → Except String (List (String × ℚ)))
    (query : String) (ct : Option String) (ids : List String) (top_k : Nat)
    (hids : ids ≠ []) (htk : 1 ≤ top_k) :
    (∀ r ∈ semantic_search backend query ct (some ids) top_k, r.id ∈ ids) ∧
    (semantic_search backend query ct (some ids) top_k).length ≤ top_k := by
  simp only [semantic_search]
  cases backend query (ctFilter (ct)) (if truthyIds (some ids) then top_k * 20 else top_k) with
  | error e => simp
  | ok results =>
    exact srLoop_subset_bound ids top_k hids results [] (by simpa using htk) (by intro a ha; cases ha)

/-- Witness for C1 at a concrete backend, candidate list and `top_k`. -/
theorem C1_witness :
    (["b"] : List String) ≠ [] ∧ (1 : Nat) ≤ 1 ∧
    ((∀ r ∈ semantic_search (fun _ _ _ => .ok [("a", (1 : ℚ)), ("b", 2)]) "q" none (some ["b"]) 1,
        r.id ∈ ["b"]) ∧
      (semantic_search (fun _ _ _ => .ok [("a", (1 : ℚ)), ("b", 2)]) "q" none (some ["b"]) 1).length ≤ 1) :=
  ⟨by decide, by decide,
    C1_subset_and_bound (fun _ _ _ => .ok [("a", (1 : ℚ)), ("b", 2)]) "q" none ["b"] 1
      (by decide) (by decide)⟩

theorem srLoop_shape (mids : Option (List String)) (top_k : Nat) :
    ∀ (rest : List (String × ℚ)) (acc : List VecResult),
      ∃ t, srLoop mids top_k acc rest = acc.reverse ++ t ∧ (t.map vecPair).Sublist rest := by
  intro rest
  induction rest with
  | nil => intro acc; exact ⟨[], by simp [srLoop], by simp⟩
  | cons p rest ih =>
    obtain ⟨i, sc⟩ := p
    intro acc
    simp only [srLoop]
    by_cases hskip : (truthyIds mids && !(mids.getD []).contains i) = true
    · rw [if_pos hskip]
      obtain ⟨t, ht, hs⟩ := ih acc
      exact ⟨t, ht, hs.cons _⟩
    · rw [if_neg hskip]
      by_cases hstop : top_k ≤ ((⟨i, sc⟩ : VecResult) :: acc).length
      · rw [if_pos hstop]
        refine ⟨[⟨i, sc⟩], by simp, ?_⟩
        simp only [List.map_cons, List.map_nil, vecPair]
        exact List.Sublist.cons₂ (i, sc) (List.nil_sublist rest)
      · rw [if_neg hstop]
        obtain ⟨t, ht, hs⟩ := ih ((⟨i, sc⟩ : VecResult) :: acc)
        refine ⟨(⟨i, sc⟩ : VecResult) :: t, ?_, ?_⟩
        · rw [ht]; simp
        · simpa [vecPair] using List.Sublist.cons₂ (i, sc) hs

/-- C2 fails as stated: `semantic_search` applies no sort of its own, so
when the vector index returns a hit list that is not descending by score
(as Chroma's ascending-by-distance lists are not, under the code's
higher-is-better reading), the output is not descending either. -/
theorem C2_counterexample :
    ¬ List.Pairwise (fun a b : VecResult => a.score ≥ b.score)
      (semantic_search (fun _ _ _ => .ok [("a", (0 : ℚ)), ("b", 1)]) "q" none none 2) := by
  decide

/-- C2 (amended): whatever hit list the backend returns, the reranker's
output is an order-preserving sublist of it (so ties keep the backend's
original order, and no sort of the code's own is applied); whenever the
backend's hit list is additionally sorted non-increasing by score, so is
the output. -/
theorem C2_preserves_backend_order
    (backend : String → Option String → Nat → Except String (List (String × ℚ)))
    (query : String) (ct : Option String) (mids : Option (List String)) (top_k : Nat)
    (results : List (String × ℚ))
    (hok : backend query (ctFilter ct) (if truthyIds mids then top_k * 20 else top_k) = .ok results) :
    ((semantic_search backend query ct mids top_k).map vecPair).Sublist results ∧
    (List.Pairwise (fun p q : String × ℚ => p.2 ≥ q.2) results →
      List.Pairwise (fun a b : VecResult => a.score ≥ b.score)
        (semantic_search backend query ct mids top_k)) := by
  have hss : semantic_search backend query ct mids top_k = srLoop mids top_k [] results := by
    simp only [semantic_search]
    rw [hok]
  obtain ⟨t, ht, hs⟩ := srLoop_shape mids top_k results []
  have ht' : srLoop mids top_k [] results = t := by simpa using ht
  rw [hss, ht']
  refine ⟨hs, ?_⟩
  intro hsorted
  have hp : List.Pairwise (fun p q : String × ℚ => p.2 ≥ q.2) (t.map vecPair) :=
    List.Pairwise.sublist hs hsorted
  rw [List.pairwise_map] at hp
  exact hp

/-- Witness for C2 at a concrete backend list: the output embeds into the
hit list order-preservingly, and for this descending list it is
descending. -/
theorem C2_witness :
    ((semantic_search (fun _ _ _ => .ok [("a", (2 : ℚ)), ("b", 1)]) "q" none none 2).map
      vecPair).Sublist [("a", (2 : ℚ)), ("b", 1)] ∧
    List.Pairwise (fun a b : VecResult => a.score ≥ b.score)
      (semantic_search (fun _ _ _ => .ok [("a", (2 : ℚ)), ("b", 1)]) "q" none none 2) :=
  ⟨(C2_preserves_backend_order (fun _ _ _ => .ok [("a", (2 : ℚ)), ("b", 1)]) "q" none none 2
      [("a", 2), ("b", 1)] rfl).1,
    (C2_preserves_backend_order (fun _ _ _ => .ok [("a", (2 : ℚ)), ("b", 1)]) "q" none none 2
      [("a", 2), ("b", 1)] rfl).2 (by decide)⟩

theorem keyLe_trans (a b c : HResult) (h1 : keyLe a b = true) (h2 : keyLe b c = true) :
    keyLe a c = true := by
  simp only [keyLe, decide_eq_true_eq] at h1 h2 ⊢
  rcases h1 with h1 | ⟨h1e, h1l⟩
  · rcases h2 with h2 | ⟨h2e, _⟩
    · exact Or.inl (h1.trans h2)
    · exact Or.inl (h2e ▸ h1)
  · rcases h2 with h2 | ⟨h2e, h2l⟩
    · exact Or.inl (h1e ▸ h2)
    · exact Or.inr ⟨h1e.trans h2e, h1l.trans h2l⟩

theorem keyLe_total (a b : HResult) : (keyLe a b || keyLe b a) = true := by
  simp only [keyLe, decide_eq_true_eq, Bool.or_eq_true]
  rcases lt_trichotomy (sort_key a).1 (sort_key b).1 with h | h | h
  · exact Or.inl (Or.inl h)
  · rcases le_total (sort_key a).2 (sort_key b).2 with h2 | h2
    · exact Or.inl (Or.inr ⟨h, h2⟩)
    · exact Or.inr (Or.inr ⟨h.symm, h2⟩)
  · exact Or.inr (Or.inl h)

theorem perm_insertSorted (a : HResult) (l : List HResult) :
    (insertSorted a l).Perm (a :: l) := by
  induction l with
  | nil => exact List.Perm.refl _
  | cons b bs ih =>
    simp only [insertSorted]
    by_cases hab : keyLe a b = true
    · rw [if_pos hab]
    · rw [if_neg hab]
      exact (ih.cons b).trans (List.Perm.swap a b bs)

theorem perm_sortResults (l : List HResult) : (sortResults l).Perm l := by
  induction l with
  | nil => exact List.Perm.refl _
  | cons a as ih => exact (perm_insertSorted a (sortResults as)).trans (ih.cons a)

theorem pairwise_insertSorted (a : HResult) (l : List HResult)
    (h : List.Pairwise (fun x y => keyLe x y = true) l) :
    List.Pairwise (fun x y => keyLe x y = true) (insertSorted a l) := by
  induction l with
  | nil => simp [insertSorted]
  | cons b bs ih =>
    simp only [insertSorted]
    rcases List.pairwise_cons.mp h with ⟨hb, hbs⟩
    by_cases hab : keyLe a b = true
    · rw [if_pos hab]
      refine List.pairwise_cons.mpr ⟨?_, h⟩
      intro y hy
      rcases List.mem_cons.mp hy with rfl | hy
      · exact hab
      · exact keyLe_trans a b y hab (hb y hy)
    · rw [if_neg hab]
      have hba : keyLe b a = true := by
        have h1 : keyLe a b = true ∨ keyLe b a = true := by simpa using keyLe_total a b
        rcases h1 with h1 | h1
        · exact absurd h1 hab
        · exact h1
      refine List.pairwise_cons.mpr ⟨?_, ih hbs⟩
      intro y hy
      rcases List.mem_cons.mp ((perm_insertSorted a bs).subset hy) with rfl | hy'
      · exact hba
      · exact hb y hy'

theorem pairwise_sortResults (l : List HResult) :
    List.Pairwise (fun x y => keyLe x y = true) (sortResults l) := by
  induction l with
  | nil => simp [sortResults]
  | cons a as ih => exact pairwise_insertSorted a _ ih

/-- C3 fails as stated: a merged record whose document carries a null
price is reachable (the scraper stores `price: None` on parse failure),
and on it the sort key computes `-None`, so `sorted` raises `TypeError`
and no final output list exists at all. -/
theorem C3_counterexample :
    docNullPrice.price = none ∧
    _rank_and_limit_results [resNullPrice] 1 = none := by
  decide

/-- C3 (amended): whenever `_rank_and_limit_results` does produce a list
— i.e. when every input record carries a non-null price; a null price
makes the sort's key function raise instead — that list is such that any
two adjacent results `a, b` satisfy `a.semantic_score >
b.semantic_score`, or equal scores with `a`'s price at least `b`'s; and
it has at most `limit` entries. -/
theorem C3_final_ranking_sorted_and_limited (results : List HResult) (limit : Nat)
    (out : List HResult) (hout : _rank_and_limit_results results limit = some out) :
    List.Chain' (fun a b => a.semantic_score > b.semantic_score ∨
      (a.semantic_score = b.semantic_score ∧ priceVal a ≥ priceVal b)) out ∧
    out.length ≤ limit := by
  have hout' : (sortResults results).take limit = out := by
    simp only [_rank_and_limit_results] at hout
    split at hout
    · exact Option.some_injective _ hout
    · cases hout
  constructor
  · have hp := pairwise_sortResults results
    have hp2 : List.Pairwise (fun a b => keyLe a b = true) out := by
      rw [← hout']
      exact List.Pairwise.sublist (List.take_sublist _ _) hp
    refine List.Pairwise.chain' (hp2.imp ?_)
    intro a b h
    simp only [keyLe, decide_eq_true_eq, sort_key] at h
    rcases h with h | ⟨h1, h2⟩
    · exact Or.inl (neg_lt_neg_iff.mp h)
    · exact Or.inr ⟨neg_inj.mp h1, neg_le_neg_iff.mp h2⟩
  · rw [← hout']
    simp only [List.length_take]
    omega

/-- Witness for C3 at a concrete all-priced input list. -/
theorem C3_witness :
    _rank_and_limit_results [resA, resB, resA] 2 = some [resB, resA] ∧
    (List.Chain' (fun a b => a.semantic_score > b.semantic_score ∨
      (a.semantic_score = b.semantic_score ∧ priceVal a ≥ priceVal b)) [resB, resA] ∧
      ([resB, resA] : List HResult).length ≤ 2) :=
  ⟨by decide, C3_final_ranking_sorted_and_limited [resA, resB, resA] 2 [resB, resA] (by decide)⟩

/-- C7: a raising MongoDB backend makes the structured filter return an
empty result set, and a raising vector index makes the reranker's search
return an empty list; neither propagates the error. -/
theorem C7_backend_failures_yield_empty (e : String) (filters : Filters) (limit : Nat)
    (query : String) (ct : Option String) (mids : Option (List String)) (top_k : Nat) :
    _mongodb_filter (fun _ _ => .error e) filters limit = [] ∧
    semantic_search (fun _ _ _ => .error e) query ct mids top_k = [] :=
  ⟨rfl, rfl⟩

/-- C9: every numeric criteria field supplied as `0` builds exactly the
query its absence would build (Python truthiness drops it), while an
amenity boolean supplied as `False` does constrain the query: a matching
document must have that amenity equal to `false`. -/
theorem C9_zero_numeric_ignored_false_boolean_applies :
    (∀ f : Filters,
      _mongodb_filter_query { f with min_price := some (.pInt 0) } =
        _mongodb_filter_query { f with min_price := none } ∧
      _mongodb_filter_query { f with max_price := some (.pInt 0) } =
        _mongodb_filter_query { f with max_price := none } ∧
      _mongodb_filter_query { f with min_area := some 0 } =
        _mongodb_filter_query { f with min_area := none } ∧
      _mongodb_filter_query { f with max_area := some 0 } =
        _mongodb_filter_query { f with max_area := none } ∧
      _mongodb_filter_query { f with rooms := some (.rInt 0) } =
        _mongodb_filter_query { f with rooms := none } ∧
      _mongodb_filter_query { f with min_year := some 0 } =
        _mongodb_filter_query { f with min_year := none } ∧
      _mongodb_filter_query { f with max_czynsz := some 0 } =
        _mongodb_filter_query { f with max_czynsz := none }) ∧
    (∀ (f : Filters) (d : Doc), f.has_garage = some false →
      docMatches (_mongodb_filter_query f) d = true → d.has_garage = false) := by
  constructor
  · intro f
    exact ⟨rfl, rfl, rfl, rfl, rfl, rfl, rfl⟩
  · intro f d hg hm
    simp only [docMatches, Bool.and_eq_true, and_assoc] at hm
    have hgq : (_mongodb_filter_query f).has_garage = some false := by
      simp [_mongodb_filter_query, hg]
    obtain ⟨-, -, -, -, -, -, -, -, -, -, -, -, hgar, -⟩ := hm
    rw [hgq] at hgar
    simpa [optCheck] using hgar

/-- Witness for C9 at concrete criteria with `has_garage=False` and a
garage-less document. -/
theorem C9_witness :
    filtersCityGarage.has_garage = some false ∧
    docMatches (_mongodb_filter_query filtersCityGarage) docOld = true ∧
    docOld.has_garage = false :=
  ⟨rfl, by decide,
    C9_zero_numeric_ignored_false_boolean_applies.2 filtersCityGarage docOld rfl (by decide)⟩

/-- C10: any `listing_type` other than exactly "rent" or "sale" —
"both", "buy", "" alike — selects both logical collections, whose
per-collection results `search` concatenates before ranking; no value is
rejected. -/
theorem C10_unknown_scope_searches_both (lt : String)
    (h1 : lt ≠ "rent") (h2 : lt ≠ "sale") :
    _get_collections_to_search lt = ["rent", "sale"] ∧
    ∀ vb mongoFind filters sq limit,
      search vb mongoFind filters sq lt limit =
        _rank_and_limit_results
          (processCollection vb (mongoFind "rent") filters sq limit "rent" ++
            processCollection vb (mongoFind "sale") filters sq limit "sale") limit := by
  have hc : _get_collections_to_search lt = ["rent", "sale"] := by
    simp [_get_collections_to_search, h1, h2]
  refine ⟨hc, ?_⟩
  intro vb mongoFind filters sq limit
  simp [search, hc]

/-- Witness for C10 at the concrete scope "buy". -/
theorem C10_witness :
    ("buy" : String) ≠ "rent" ∧ _get_collections_to_search "buy" = ["rent", "sale"] :=
  ⟨by decide, (C10_unknown_scope_searches_both "buy" (by decide) (by decide)).1⟩

theorem add_mono (db : List (String × String)) (l : Listing) (i : String)
    (h : db.any (fun p => p.1 == i) = true) :
    (add_listing_to_vector_db db l).any (fun p => p.1 == i) = true := by
  simp only [add_listing_to_vector_db]
  split
  · exact h
  · split
    · exact h
    · split
      · exact h
      · simp [h]

theorem add_self (db : List (String × String)) (l : Listing) (i : String)
    (hl : l._id = some i) (hi : i ≠ "") :
    (add_listing_to_vector_db db l).any (fun p => p.1 == i) = true := by
  simp only [add_listing_to_vector_db, hl]
  rw [if_neg hi]
  by_cases h : db.any (fun p => p.1 == i) = true
  · rw [if_pos h]
    exact h
  · rw [if_neg h]
    simp

theorem add_nop_of_has (db : List (String × String)) (l : Listing) (i : String)
    (hl : l._id = some i) (h : db.any (fun p => p.1 == i) = true) :
    add_listing_to_vector_db db l = db := by
  simp only [add_listing_to_vector_db, hl]
  by_cases hi : i = ""
  · rw [if_pos hi]
  · rw [if_neg hi, if_pos h]

theorem add_nop_invalid (db : List (String × String)) (l : Listing)
    (h : l._id = none ∨ l._id = some "") :
    add_listing_to_vector_db db l = db := by
  rcases h with h | h <;> simp [add_listing_to_vector_db, h]

theorem foldl_add_mono (ls : List Listing) (db : List (String × String)) (i : String)
    (h : db.any (fun p => p.1 == i) = true) :
    (ls.foldl add_listing_to_vector_db db).any (fun p => p.1 == i) = true := by
  induction ls generalizing db with
  | nil => exact h
  | cons l ls ih => exact ih _ (add_mono _ _ _ h)

theorem foldl_add_has (ls : List Listing) (db : List (String × String)) (l : Listing)
    (i : String) (hmem : l ∈ ls) (hl : l._id = some i) (hi : i ≠ "") :
    (ls.foldl add_listing_to_vector_db db).any (fun p => p.1 == i) = true := by
  induction ls generalizing db with
  | nil => cases hmem
  | cons a ls ih =>
    rcases List.mem_cons.mp hmem with h | h
    · subst h
      exact foldl_add_mono ls _ i (add_self db l i hl hi)
    · exact ih (add_listing_to_vector_db db a) h

theorem foldl_add_fixed (ls : List Listing) (F : List (String × String))
    (h : ∀ l ∈ ls, add_listing_to_vector_db F l = F) :
    ls.foldl add_listing_to_vector_db F = F := by
  induction ls with
  | nil => rfl
  | cons a ls ih =>
    have ha := h a (by simp)
    simp only [List.foldl_cons, ha]
    exact ih (fun l hl => h l (by simp [hl]))

theorem foldl_add_idem (db : List (String × String)) (ls : List Listing) :
    ls.foldl add_listing_to_vector_db (ls.foldl add_listing_to_vector_db db) =
      ls.foldl add_listing_to_vector_db db := by
  apply foldl_add_fixed
  intro l hl
  cases hlid : l._id with
  | none => exact add_nop_invalid _ _ (Or.inl hlid)
  | some i =>
    by_cases hi : i = ""
    · exact add_nop_invalid _ _ (Or.inr (hi ▸ hlid))
    · exact add_nop_of_has _ _ i hlid (foldl_add_has ls db l i hl hlid hi)

/-- C6: adding a second listing with an id already ingested never changes
the store — the add finds the existing id and returns without
overwriting — and re-running `populate_from_mongo` over an unchanged
source leaves the store (hence its document count) unchanged. -/
theorem C6_ingestion_idempotent :
    (∀ (db : List (String × String)) (l1 l2 : Listing) (i : String),
      l1._id = some i → l2._id = some i →
      add_listing_to_vector_db (add_listing_to_vector_db db l1) l2 =
        add_listing_to_vector_db db l1) ∧
    (∀ (db : List (String × String)) (rent sale : List Listing) (limit : Option Nat),
      (populate_from_mongo (populate_from_mongo db rent sale limit) rent sale limit).length =
        (populate_from_mongo db rent sale limit).length) := by
  constructor
  · intro db l1 l2 i h1 h2
    by_cases hi : i = ""
    · subst hi
      rw [add_nop_invalid db l1 (Or.inr h1), add_nop_invalid db l2 (Or.inr h2)]
    · exact add_nop_of_has _ _ i h2 (add_self db l1 i h1 hi)
  · intro db rent sale limit
    simp only [populate_from_mongo]
    rw [foldl_add_idem]

/-- Witness for C6: two listings sharing the id "id1"; the second add
leaves the store unchanged. -/
theorem C6_witness :
    listingA._id = some "id1" ∧ listingB._id = some "id1" ∧
    add_listing_to_vector_db (add_listing_to_vector_db [] listingA) listingB =
      add_listing_to_vector_db [] listingA :=
  ⟨rfl, rfl, C6_ingestion_idempotent.1 [] listingA listingB "id1" rfl rfl⟩

/-- C4 fails as stated: with a malformed (non-numeric) `min_price`, the
offending constraint is NOT dropped — it is embedded verbatim in the
built query as the `$gte` bound — and the remaining fields do not get to
apply on their own: a document satisfying every well-formed constraint
(here, the city filter) still fails the whole query. -/
theorem C4_counterexample :
    (_mongodb_filter_query filtersBadPrice).price = some ⟨some (.pStr "abc"), none⟩ ∧
    containsCI docOld.city "Warszawa" = true ∧
    docMatches (_mongodb_filter_query filtersBadPrice) docOld = false := by
  decide

/-- C4 (amended): a malformed `min_price` cannot crash query
construction, but it is neither dropped nor diagnosed: the offending
value is embedded verbatim as the `$gte` price bound, and — since under
BSON type bracketing a string bound matches no numeric price — the whole
query then matches no document, so the remaining constraints never apply
on their own.  (A backend error during execution empties the whole
result instead, cf. C7.) -/
theorem C4_malformed_min_price_embedded_not_dropped (f : Filters) (s : String)
    (hs : s ≠ "") (hf : f.min_price = some (.pStr s)) :
    (_mongodb_filter_query f).price = some ⟨some (.pStr s), keepP f.max_price⟩ ∧
    ∀ d : Doc, docMatches (_mongodb_filter_query f) d = false := by
  have hkeep : keepP f.min_price = some (.pStr s) := by
    simp [keepP, truthyOptP, truthyP, hf, hs]
  have hq : (_mongodb_filter_query f).price = some ⟨some (.pStr s), keepP f.max_price⟩ := by
    simp [_mongodb_filter_query, hkeep]
  refine ⟨hq, ?_⟩
  intro d
  simp [docMatches, hq, optCheck, pvalGte]

/-- Witness for C4 at the concrete malformed criteria. -/
theorem C4_witness :
    ("abc" : String) ≠ "" ∧ filtersBadPrice.min_price = some (.pStr "abc") ∧
    docMatches (_mongodb_filter_query filtersBadPrice) docOld = false :=
  ⟨by decide, rfl,
    (C4_malformed_min_price_embedded_not_dropped filtersBadPrice "abc" (by decide) rfl).2 docOld⟩

/-- C5 fails as stated: supplying `min_year` together with
`max_build_year` silently drops the `min_year` bound — the extended
build-year block overwrites the `build_year` key — so a 1980 building
matches a query demanding construction from 2000 on. -/
theorem C5_counterexample :
    filtersYears.min_year = some 2000 ∧
    docMatches (_mongodb_filter_query filtersYears) docOld = true ∧
    strLe (toString (2000 : Int)) docOld.build_year = false := by
  decide

/-- C5 (amended): every supplied (truthy) filter field is imposed
conjunctively on matching documents, and absent fields impose nothing
(the empty criteria match every document) — with one exception: the
`min_year` bound is imposed only when neither `min_build_year` nor
`max_build_year` is supplied, because the extended build-year block
overwrites the `build_year` key built from `min_year`. -/
theorem C5_filters_anded_min_year_overwritten :
    (∀ (f : Filters) (d : Doc), docMatches (_mongodb_filter_query f) d = true →
      (∀ s, f.city = some s → s ≠ "" → containsCI d.city s = true) ∧
      (∀ s, f.district = some s → s ≠ "" → containsCI d.district s = true) ∧
      (∀ n, f.rooms = some (.rInt n) → n ≠ 0 → d.room_count = n) ∧
      (∀ l, f.rooms = some (.rList l) → l ≠ [] → d.room_count ∈ l) ∧
      (∀ v, f.min_price = some v → truthyP v = true → pvalGte v d.price = true) ∧
      (∀ v, f.max_price = some v → truthyP v = true → pvalLte v d.price = true) ∧
      (∀ n, f.min_area = some n → n ≠ 0 → n ≤ d.space_sm) ∧
      (∀ n, f.max_area = some n → n ≠ 0 → d.space_sm ≤ n) ∧
      (∀ s, f.building_type = some s → s ≠ "" → d.building_type = s) ∧
      (truthyInt f.min_build_year = false → truthyInt f.max_build_year = false →
        ∀ n, f.min_year = some n → n ≠ 0 → strLe (toString n) d.build_year = true) ∧
      (∀ n, f.min_build_year = some n → n ≠ 0 → strLe (toString n) d.build_year = true) ∧
      (∀ n, f.max_build_year = some n → n ≠ 0 → strLe d.build_year (toString n) = true) ∧
      (∀ s, f.market_type = some s → s ≠ "" → d.market_type = s) ∧
      (∀ s, f.stan_wykonczenia = some s → s ≠ "" → d.stan_wykonczenia = s) ∧
      (∀ s, f.building_material = some s → s ≠ "" → d.building_material = s) ∧
      (∀ s, f.ogrzewanie = some s → s ≠ "" → d.ogrzewanie = s) ∧
      (∀ n, f.max_czynsz = some n → n ≠ 0 → d.czynsz ≤ n) ∧
      (∀ b, f.has_garage = some b → d.has_garage = b) ∧
      (∀ b, f.has_parking = some b → d.has_parking = b) ∧
      (∀ b, f.has_balcony = some b → d.has_balcony = b) ∧
      (∀ b, f.has_elevator = some b → d.has_elevator = b) ∧
      (∀ b, f.has_air_conditioning = some b → d.has_air_conditioning = b) ∧
      (∀ b, f.pets_allowed = some b → d.pets_allowed = b) ∧
      (∀ b, f.furnished = some b → d.furnished = b)) ∧
    (∀ d : Doc, docMatches (_mongodb_filter_query noFilters) d = true) := by
  constructor
  · intro f d h
    simp only [docMatches, _mongodb_filter_query, Bool.and_eq_true, and_assoc] at h
    obtain ⟨hcity, hdist, hrooms, hprice, harea, hbtype, hbyear, hmkt, hstan, hmat,
      hogrz, hczynsz, hgar, hpark, hbalc, helev, hac, hpets, hfurn⟩ := h
    refine ⟨?_, ?_, ?_, ?_, ?_, ?_, ?_, ?_, ?_, ?_, ?_, ?_, ?_, ?_, ?_, ?_, ?_,
      ?_, ?_, ?_, ?_, ?_, ?_, ?_⟩
    · intro s hsf hne
      simp only [keepStr, hsf, truthyStr] at hcity
      have hb : (s != "") = true := by simpa using hne
      rw [hb] at hcity
      simpa [optCheck] using hcity
    · intro s hsf hne
      simp only [keepStr, hsf, truthyStr] at hdist
      have hb : (s != "") = true := by simpa using hne
      rw [hb] at hdist
      simpa [optCheck] using hdist
    · intro n hnf hne
      simp only [roomsQ, hnf] at hrooms
      have hb : (n != 0) = true := by simpa using hne
      rw [hb] at hrooms
      simpa [optCheck] using hrooms
    · intro l hlf hne
      simp only [roomsQ, hlf] at hrooms
      have hb : (!l.isEmpty) = true := by simp [List.isEmpty_iff, hne]
      rw [hb] at hrooms
      simpa [optCheck] using hrooms
    · intro v hvf htv
      have hkeep : keepP f.min_price = some v := by simp [keepP, truthyOptP, hvf, htv]
      rw [hkeep] at hprice
      simp only [Option.isSome_some, Bool.true_or, if_pos, optCheck, Bool.and_eq_true] at hprice
      exact hprice.1
    · intro v hvf htv
      have hkeep : keepP f.max_price = some v := by simp [keepP, truthyOptP, hvf, htv]
      rw [hkeep] at hprice
      rcases hmin : keepP f.min_price with _ | w <;>
        · rw [hmin] at hprice
          simp only [Option.isSome_some, Bool.or_true, if_pos, optCheck, Bool.and_eq_true] at hprice
          exact hprice.2
    · intro n hnf hne
      have hkeep : keepInt f.min_area = some n := by simp [keepInt, truthyInt, hnf, hne]
      rw [hkeep] at harea
      simp only [Option.isSome_some, Bool.true_or, if_pos, optCheck, Bool.and_eq_true,
        decide_eq_true_eq] at harea
      exact harea.1
    · intro n hnf hne
      have hkeep : keepInt f.max_area = some n := by simp [keepInt, truthyInt, hnf, hne]
      rw [hkeep] at harea
      rcases hmin : keepInt f.min_area with _ | w <;>
        · rw [hmin] at harea
          simp only [Option.isSome_some, Bool.or_true, if_pos, optCheck, Bool.and_eq_true,
            decide_eq_true_eq] at harea
          exact harea.2
    · intro s hsf hne
      simp only [keepStr, hsf, truthyStr] at hbtype
      have hb : (s != "") = true := by simpa using hne
      rw [hb] at hbtype
      simpa [optCheck] using hbtype
    · intro hnb1 hnb2 n hnf hne
      have hg1 : strOfTruthyInt f.min_build_year = none := by
        cases hb : f.min_build_year with
        | none => rfl
        | some m =>
          rw [hb] at hnb1
          simp only [truthyInt] at hnb1
          simp [strOfTruthyInt, hnb1]
      have hg2 : strOfTruthyInt f.max_build_year = none := by
        cases hb : f.max_build_year with
        | none => rfl
        | some m =>
          rw [hb] at hnb2
          simp only [truthyInt] at hnb2
          simp [strOfTruthyInt, hnb2]
      have hb : (n != 0) = true := by simpa using hne
      rw [hg1, hg2] at hbyear
      simpa [strOfTruthyInt, hnf, hb, optCheck] using hbyear
    · intro n hnf hne
      have hb : (n != 0) = true := by simpa using hne
      have hg : strOfTruthyInt f.min_build_year = some (toString n) := by
        simp [strOfTruthyInt, hnf, hb]
      rw [hg] at hbyear
      simp only [Option.isSome_some, Bool.true_or, if_pos, optCheck, Bool.and_eq_true] at hbyear
      exact hbyear.1
    · intro n hnf hne
      have hb : (n != 0) = true := by simpa using hne
      have hg : strOfTruthyInt f.max_build_year = some (toString n) := by
        simp [strOfTruthyInt, hnf, hb]
      rw [hg] at hbyear
      rcases hmin : strOfTruthyInt f.min_build_year with _ | w <;>
        · rw [hmin] at hbyear
          simp only [Option.isSome_some, Bool.or_true, if_pos, optCheck,
            Bool.and_eq_true] at hbyear
          exact hbyear.2
    · intro s hsf hne
      simp only [keepStr, hsf, truthyStr] at hmkt
      have hb : (s != "") = true := by simpa using hne
      rw [hb] at hmkt
      simpa [optCheck] using hmkt
    · intro s hsf hne
      simp only [keepStr, hsf, truthyStr] at hstan
      have hb : (s != "") = true := by simpa using hne
      rw [hb] at hstan
      simpa [optCheck] using hstan
    · intro s hsf hne
      simp only [keepStr, hsf, truthyStr] at hmat
      have hb : (s != "") = true := by simpa using hne
      rw [hb] at hmat
      simpa [optCheck] using hmat
    · intro s hsf hne
      simp only [keepStr, hsf, truthyStr] at hogrz
      have hb : (s != "") = true := by simpa using hne
      rw [hb] at hogrz
      simpa [optCheck] using hogrz
    · intro n hnf hne
      have hkeep : keepInt f.max_czynsz = some n := by simp [keepInt, truthyInt, hnf, hne]
      rw [hkeep] at hczynsz
      simpa [optCheck] using hczynsz
    · intro b hbf
      rw [hbf] at hgar
      simpa [optCheck] using hgar
    · intro b hbf
      rw [hbf] at hpark
      simpa [optCheck] using hpark
    · intro b hbf
      rw [hbf] at hbalc
      simpa [optCheck] using hbalc
    · intro b hbf
      rw [hbf] at helev
      simpa [optCheck] using helev
    · intro b hbf
      rw [hbf] at hac
      simpa [optCheck] using hac
    · intro b hbf
      rw [hbf] at hpets
      simpa [optCheck] using hpets
    · intro b hbf
      rw [hbf] at hfurn
      simpa [optCheck] using hfurn
  · intro d
    rfl

/-- Witness for C5 at concrete criteria and a concrete matching
document. -/
theorem C5_witness :
    docMatches (_mongodb_filter_query filtersCityGarage) docOld = true ∧
    pvalGte (.pInt 50) docOld.price = true :=
  ⟨by decide,
    (C5_filters_anded_min_year_overwritten.1 filtersCityGarage docOld (by decide)).2.2.2.2.1
      (.pInt 50) rfl (by decide)⟩

theorem mem_rank {r : HResult} {l : List HResult} {lim : Nat} {out : List HResult}
    (hout : _rank_and_limit_results l lim = some out) (h : r ∈ out) : r ∈ l := by
  have hout' : (sortResults l).take lim = out := by
    simp only [_rank_and_limit_results] at hout
    split at hout
    · exact Option.some_injective _ hout
    · cases hout
  rw [← hout'] at h
  have h1 : r ∈ sortResults l := (List.take_sublist _ _).subset h
  exact (perm_sortResults l).mem_iff.mp h1

/-- C8: with no (or a blank) free-text query, the whole search is
independent of the vector backend (the reranker is never invoked), each
scope passes its filtered records straight through `_format_mongo_results`,
and every returned record carries `semantic_score = 0.0` and
`search_relevance = "filter_match"`; moreover a scope whose filter
returns zero records contributes zero results — for any vector backend —
whether or not a query is present. -/
theorem C8_no_query_passthrough :
    (∀ vb1 vb2 mongoFind f sq lt lim, qTruthy sq = false →
      search vb1 mongoFind f sq lt lim = search vb2 mongoFind f sq lt lim) ∧
    (∀ vb bf f sq lim c, qTruthy sq = false →
      processCollection vb bf f sq lim c =
        _format_mongo_results (_mongodb_filter bf f (mongoLimitOf sq lim)) c) ∧
    (∀ vb mongoFind f sq lt lim out r, qTruthy sq = false →
      search vb mongoFind f sq lt lim = some out → r ∈ out →
      r.semantic_score = 0 ∧ r.search_relevance = "filter_match") ∧
    (∀ vb bf f sq lim c, _mongodb_filter bf f (mongoLimitOf sq lim) = [] →
      processCollection vb bf f sq lim c = []) := by
  have hpass : ∀ vb bf f sq lim c, qTruthy sq = false →
      processCollection vb bf f sq lim c =
        _format_mongo_results (_mongodb_filter bf f (mongoLimitOf sq lim)) c := by
    intro vb bf f sq lim c hq
    simp only [processCollection, hq]
    cases hm : _mongodb_filter bf f (mongoLimitOf sq lim) with
    | nil => simp [_format_mongo_results]
    | cons a as => simp [_format_mongo_results]
  refine ⟨?_, hpass, ?_, ?_⟩
  · intro vb1 vb2 mongoFind f sq lt lim hq
    simp only [search]
    congr 1
    congr 1
    funext c
    rw [hpass vb1 (mongoFind c) f sq lim c hq, hpass vb2 (mongoFind c) f sq lim c hq]
  · intro vb mongoFind f sq lt lim out r hq hout hr
    simp only [search] at hout
    have hr' := mem_rank hout hr
    rw [List.mem_flatMap] at hr'
    obtain ⟨c, -, hrc⟩ := hr'
    rw [hpass vb (mongoFind c) f sq lim c hq] at hrc
    simp only [_format_mongo_results, List.mem_map] at hrc
    obtain ⟨d, -, hd⟩ := hrc
    rw [← hd]
    exact ⟨rfl, rfl⟩
  · intro vb bf f sq lim c hfil
    simp only [processCollection, hfil]
    simp

/-- Witness for C8: with no query, two different vector backends give the
same search result, and a scope whose filter yields nothing contributes
nothing. -/
theorem C8_witness :
    qTruthy none = false ∧
    search vbSample1 mfSample noFilters none "rent" 5 =
      search vbSample2 mfSample noFilters none "rent" 5 ∧
    processCollection vbSample1 (fun _ _ => .ok []) noFilters none 5 "rent" = [] :=
  ⟨rfl,
    C8_no_query_passthrough.1 vbSample1 vbSample2 mfSample noFilters none "rent" 5 rfl,
    C8_no_query_passthrough.2.2.2 vbSample1 (fun _ _ => .ok []) noFilters none 5 "rent" rfl⟩

end RealEstate
